import Mathlib

/-!
# Verification of the forms crawler (`forms_crawler.py`)

A shallow embedding of the crawler: the `WebCrawler` class's pure helpers become
Lean functions; the stateful crawl loop becomes explicit state passing over a
`CrawlState`, driven by a `web` oracle mapping a URL to its fetch outcome and by
a `times` trace giving the elapsed minutes observed at each loop check.  The
HTML parser is modelled at the interface the code uses: `selectOne` for CSS
selectors, `findMeta` for meta tags by name, and the list of anchor hrefs.
Python strings are Lean `String`s; Python string operations (`in`, `startswith`,
`lower`, `strip`, `replace`, `rstrip`) are re-implemented below on `List Char`
so that every definition is executable and kernel-reducible.
-/

namespace Crawler

/-- Python `needle.isPrefixOf haystack` on character lists (string `startswith`). -/
def leadsWith : List Char → List Char → Bool
  | [], _ => true
  | _ :: _, [] => false
  | a :: as, b :: bs => a == b && leadsWith as bs

/-- Python substring test `needle in haystack` on character lists. -/
def hasSub (n : List Char) : List Char → Bool
  | [] => leadsWith n []
  | c :: t => leadsWith n (c :: t) || hasSub n t

/-- Python `needle in haystack` on strings. -/
def strIn (needle haystack : String) : Bool :=
  hasSub needle.data haystack.data

/-- Python `s.startswith(p)`. -/
def strStarts (p s : String) : Bool :=
  leadsWith p.data s.data

/-- Python `s.lower()` (ASCII, which is all the crawler feeds it). -/
def lowerStr (s : String) : String :=
  String.mk (s.data.map Char.toLower)

/-- Python `s.strip()`: drop whitespace from both ends. -/
def trimStr (s : String) : String :=
  String.mk (((s.data.dropWhile Char.isWhitespace).reverse.dropWhile Char.isWhitespace).reverse)

/-- Python `s.strip(chars)`: drop any of `chars` from both ends. -/
def stripBoth (chars : String) (s : String) : String :=
  String.mk (((s.data.dropWhile (fun c => chars.data.contains c)).reverse.dropWhile
    (fun c => chars.data.contains c)).reverse)

/-- Fuelled worker for `removeWord`; fuel bounds the number of characters consumed. -/
def removeWordFuel (w : List Char) : Nat → List Char → List Char
  | 0, _ => []
  | _, [] => []
  | Nat.succ fuel, c :: rest =>
    if w ≠ [] && leadsWith w (c :: rest) then
      removeWordFuel w fuel (List.drop (w.length - 1) rest)
    else c :: removeWordFuel w fuel rest

/-- Python `s.replace(w, '')`: remove every occurrence of `w`, scanning left to right. -/
def removeWord (w s : List Char) : List Char :=
  removeWordFuel w s.length s

/-- Lift of `removeWord` to strings. -/
def removeWordStr (w s : String) : String :=
  String.mk (removeWord w.data s.data)

/-- Python `s[:200]`. -/
def take200 (s : String) : String :=
  String.mk (s.data.take 200)

/-- Python `sep.join(xs)`. -/
def joinWith (sep : String) : List String → String
  | [] => ""
  | x :: rest => rest.foldl (fun a b => a ++ sep ++ b) x

/-- A single-quote character as a string (used in synthesized field selectors). -/
def sq : String :=
  String.mk [Char.ofNat 39]

/-- Split a character list at the first occurrence of `c`; `none` if `c` is absent. -/
def splitFirst (c : Char) : List Char → Option (List Char × List Char)
  | [] => none
  | x :: xs =>
    if x == c then some ([], xs)
    else match splitFirst c xs with
      | some (a, b) => some (x :: a, b)
      | none => none

/-- Valid characters of a URL scheme after the leading letter. -/
def isSchemeChar (c : Char) : Bool :=
  c.isAlpha || c.isDigit || c == '+' || c == '-' || c == '.'

/-- Result of `urllib.parse.urlparse`, restricted to the components the crawler reads. -/
structure ParseResult where
  scheme : String
  netloc : String
  path : String
deriving DecidableEq

/-- Model of `urllib.parse.urlparse` for the shapes of URL the crawler handles:
strip the fragment and the query, split off a well-formed scheme at the first
colon (lower-casing it, as Python does), then take the netloc up to the next
slash when the remainder opens with `//`. -/
def urlparse (url : String) : ParseResult :=
  let cs := url.data
  let cs := match splitFirst '#' cs with | some (a, _) => a | none => cs
  let cs := match splitFirst '?' cs with | some (a, _) => a | none => cs
  let p := match splitFirst ':' cs with
    | some (a, b) =>
      match a with
      | [] => ([], cs)
      | c :: rest => if c.isAlpha && rest.all isSchemeChar then (a.map Char.toLower, b) else ([], cs)
    | none => ([], cs)
  match p.2 with
  | '/' :: '/' :: r =>
    let netloc := r.takeWhile (fun c => c ≠ '/')
    let path := r.dropWhile (fun c => c ≠ '/')
    ⟨String.mk p.1, String.mk netloc, String.mk path⟩
  | _ => ⟨String.mk p.1, "", String.mk p.2⟩

/-- Collapse every run of `/` into a single `/` (the `re.sub(r'/+', '/', ...)` step). -/
def collapseSlashes : List Char → List Char
  | [] => []
  | [c] => [c]
  | a :: b :: r =>
    if a == '/' && b == '/' then collapseSlashes (b :: r)
    else a :: collapseSlashes (b :: r)

/-- Python `path.rstrip('/')`. -/
def dropTrailingSlashes (s : List Char) : List Char :=
  (s.reverse.dropWhile (fun c => c == '/')).reverse

/-- Model of `WebCrawler._normalize_url`: lower-cased netloc, collapsed duplicate slashes,
all trailing slashes stripped, query and fragment discarded. -/
def normalize_url (url : String) : String :=
  let parsed := urlparse url
  let clean_path := String.mk (collapseSlashes (dropTrailingSlashes parsed.path.data))
  parsed.scheme ++ "://" ++ lowerStr parsed.netloc ++ clean_path

/-- The scheme and host of a URL, used to resolve root-relative links. -/
def schemeHostOf (url : String) : String :=
  let parsed := urlparse url
  parsed.scheme ++ "://" ++ parsed.netloc

/-- Drop the last path segment, keeping the trailing `/` (for relative resolution). -/
def dropLastSegment (path : List Char) : List Char :=
  (path.reverse.dropWhile (fun c => c ≠ '/')).reverse

/-- Model of `urllib.parse.urljoin` for the href shapes the crawler meets:
an absolute URL stands as is, a root-relative href is glued to the base's
scheme and host, and any other href replaces the base's last path segment.
All concrete inputs in the theorems below use the absolute branch. -/
def urljoin (base href : String) : String :=
  if strIn "://" href then href
  else if strStarts "/" href then schemeHostOf base ++ href
  else
    let parsed := urlparse base
    let dir := dropLastSegment parsed.path.data
    let dir := if dir.isEmpty then ['/'] else dir
    parsed.scheme ++ "://" ++ parsed.netloc ++ String.mk dir ++ href

/-- An HTML element as the extractor reads it: its tag name and its attributes. -/
structure Element where
  tag : String
  attrs : List (String × String)
deriving DecidableEq

/-- A form element matched by a selector: its own attributes and its
`input`/`textarea`/`select` descendants in document order (the result of
`form.find_all(['input', 'textarea', 'select'])`). -/
structure FormElem where
  attrs : List (String × String)
  controls : List Element
deriving DecidableEq

/-- A parsed document at the interface the crawler uses: `select_one`,
`find('meta', attrs={'name': ...})`, and the hrefs of `find_all('a', href=True)`. -/
structure Doc where
  selectOne : String → Option FormElem
  findMeta : String → Option Element
  anchors : List String

/-- Model of `element.get(key, default)`. -/
def getAttr (attrs : List (String × String)) (key default : String) : String :=
  match attrs.find? (fun p => p.1 == key) with
  | some p => p.2
  | none => default

/-- Model of `element.has_attr(key)`. -/
def hasAttr (attrs : List (String × String)) (key : String) : Bool :=
  (attrs.find? (fun p => p.1 == key)).isSome

/-- One entry of `self.form_configs`: a display name and an ordered selector list. -/
structure FormConfig where
  name : String
  selectors : List String
deriving DecidableEq

/-- The catalog `self.form_configs`, in dict insertion order. -/
def form_configs : List (String × FormConfig) :=
  [("/", { name := "Get Free Recommendations", selectors := ["form#home-recommendations"] }),
   ("vendor-profile-page-software",
    { name := "Software Profile Forms",
      selectors := ["form.get-pricing-form", "form.compare-pricing-form", "form.watch-demo-form",
                    "form.write-review-form", "form.fit-check-form"] }),
   ("vendor-profile-page-services",
    { name := "Services Profile Forms",
      selectors := ["form.get-quote-form", "form.download-portfolio-form"] }),
   ("lead-generation-page", { name := "Get Started Form", selectors := ["form.vendor-signup-form"] }),
   ("subcategory-page",
    { name := "Subcategory Forms",
      selectors := ["form.pricing-guide-form", "form.download-list-form"] }),
   ("vendor-comparison-page", { name := "Comparison Form", selectors := ["form.comparison-form"] }),
   ("whitepaper-article-page", { name := "Whitepaper Form", selectors := ["form.whitepaper-form"] }),
   ("register-now", { name := "Webinar Registration", selectors := ["form.webinar-form"] }),
   ("watch-now-webinar", { name := "Watch Webinar", selectors := ["form.watch-webinar-form"] }),
   ("category-page",
    { name := "Category Page Forms", selectors := ["form.advice-form", "form.help-form"] }),
   ("get-free-advice",
    { name := "Advice Forms",
      selectors := ["form.deciding-help-form", "form.software-search-form"] }),
   ("contact-us", { name := "Contact Form", selectors := ["form.contact-form"] })]

/-- Every selector of the catalog, in scan order. -/
def allSelectors : List String :=
  (form_configs.map (fun pc => pc.2.selectors)).flatten

/-- The claim's wording of the form-id fallback: the selector with the literal
word `form` removed and any leading `.` or `#` characters stripped. -/
def specFormIdFallback (selector : String) : String :=
  String.mk ((removeWord "form".data selector.data).dropWhile (fun c => c == '.' || c == '#'))

/-- Model of `WebCrawler._should_crawl_url`: denylist of file extensions and of duplicate
content patterns checked against the lower-cased parsed path; the final two
branches of the source both return `True` and are kept as written. -/
def should_crawl_url (url : String) : Bool :=
  let path := lowerStr (urlparse url).path
  if [".jpg", ".jpeg", ".png", ".gif", ".pdf", ".zip", ".css", ".js",
      ".ico", ".xml", ".txt", ".doc", ".docx", ".xls", ".xlsx"].any
      (fun ext => strIn ext path) then false
  else if ["/feed/", "/rss/", "/atom/", "/api/", "/print/", "/trackback/",
           "offset=", "limit=", "start="].any (fun pat => strIn pat path) then false
  else if form_configs.any (fun pc => strIn pc.1 path) then true
  else true

/-- The per-page meta analysis record built by `_extract_meta_info`. -/
structure MetaInfo where
  url : String
  has_meta_keywords : Bool
  has_meta_description : Bool
  meta_keywords : String
  meta_description : String
  seo_issues : List String
deriving DecidableEq

/-- Model of `WebCrawler._extract_meta_info`: look up the `description` and `keywords`
meta tags; a present tag with non-blank stripped content sets the flag and the
content, a present tag with blank content records an "Empty" issue, an absent
tag records a "Missing" issue, description first, keywords second. -/
def extract_meta_info (soup : Doc) (url : String) : MetaInfo :=
  let meta_info : MetaInfo :=
    { url := url, has_meta_keywords := false, has_meta_description := false,
      meta_keywords := "", meta_description := "", seo_issues := [] }
  let meta_info :=
    match soup.findMeta "description" with
    | some meta_desc =>
      let content := trimStr (getAttr meta_desc.attrs "content" "")
      if content ≠ "" then
        { meta_info with has_meta_description := true, meta_description := content }
      else
        { meta_info with seo_issues := meta_info.seo_issues ++ ["Empty meta description"] }
    | none => { meta_info with seo_issues := meta_info.seo_issues ++ ["Missing meta description"] }
  let meta_info :=
    match soup.findMeta "keywords" with
    | some meta_keywords =>
      let content := trimStr (getAttr meta_keywords.attrs "content" "")
      if content ≠ "" then
        { meta_info with has_meta_keywords := true, meta_keywords := content }
      else
        { meta_info with seo_issues := meta_info.seo_issues ++ ["Empty meta keywords"] }
    | none => { meta_info with seo_issues := meta_info.seo_issues ++ ["Missing meta keywords"] }
  meta_info

/-- One extracted field (the `field_data` dict). -/
structure FieldData where
  selector : String
  type : String
  required : Bool
deriving DecidableEq

/-- One extracted form (the `form_data` dict). -/
structure FormData where
  url : String
  form_id : String
  form_selector : String
  form_type : String
  fields : List FieldData
  meta_info : MetaInfo
deriving DecidableEq

/-- The field loop over `form.find_all(['input', 'textarea', 'select'])`: an
`input`'s type is its `type` attribute (default `text`), any other control's
type is its tag name; fields of type `hidden` or `submit` are skipped. -/
def extractFields : List Element → List FieldData
  | [] => []
  | field :: rest =>
    let field_type := if field.tag == "input" then getAttr field.attrs "type" "text" else field.tag
    let field_name := getAttr field.attrs "name" ""
    let required := hasAttr field.attrs "required" || hasAttr field.attrs "data-required"
    if field_type == "hidden" || field_type == "submit" then extractFields rest
    else
      { selector := field.tag ++ "[name=" ++ sq ++ field_name ++ sq ++ "]",
        type := field_type, required := required } :: extractFields rest

/-- The body of one selector iteration in `_extract_form_info`: `select_one`,
extract the visible fields, and emit one `form_data` only when some field
survives.  The form id is the element's `id` attribute when truthy, else
`selector.replace('form', '').strip('.#')`. -/
def selectorForms (url : String) (meta_info : MetaInfo) (soup : Doc) (name selector : String) :
    List FormData :=
  match soup.selectOne selector with
  | some form =>
    let fields := extractFields form.controls
    if fields.isEmpty then []
    else
      [{ url := url,
         form_id :=
           (let i := getAttr form.attrs "id" ""
            if i == "" then stripBoth ".#" (removeWordStr "form" selector) else i),
         form_selector := selector, form_type := name, fields := fields,
         meta_info := meta_info }]
  | none => []

/-- One catalog entry's contribution in `_extract_form_info`: the source guard
`if path in url or path == '/'` followed by the scan over its selectors. -/
def entryForms (url : String) (meta_info : MetaInfo) (soup : Doc) (pc : String × FormConfig) :
    List FormData :=
  if strIn pc.1 url || pc.1 == "/" then
    (pc.2.selectors.map (selectorForms url meta_info soup pc.2.name)).flatten
  else []

/-- The catalog entries whose guard `path in url or path == '/'` holds, i.e. the
entries whose selectors the code attempts on the page at `url`. -/
def attemptedEntries (url : String) : List (String × FormConfig) :=
  form_configs.filter (fun pc => strIn pc.1 url || pc.1 == "/")

/-- Model of `WebCrawler._extract_form_info(url, html)`.  The `html` argument is the
parser's outcome on the page body: `none` models `BeautifulSoup` raising, which
the method's `except` clause turns into the empty form list. -/
def extract_form_info (url : String) (html : Option Doc) : List FormData :=
  match html with
  | none => []
  | some soup =>
    (form_configs.map (entryForms url (extract_meta_info soup url) soup)).flatten

/-- The inner selector loop of the inline extraction block of `_process_url`
(lines 232-265), transcribed as the imperative accumulation into `forms`. -/
def processSelectorsLoop (url : String) (meta_info : MetaInfo) (soup : Doc) (name : String) :
    List String → List FormData → List FormData
  | [], forms => forms
  | selector :: rest, forms =>
    processSelectorsLoop url meta_info soup name rest
      (match soup.selectOne selector with
       | some form =>
         let fields := extractFields form.controls
         if fields.isEmpty then forms
         else
           forms ++
             [{ url := url,
                form_id :=
                  (let i := getAttr form.attrs "id" ""
                   if i == "" then stripBoth ".#" (removeWordStr "form" selector) else i),
                form_selector := selector, form_type := name, fields := fields,
                meta_info := meta_info }]
       | none => forms)

/-- The outer loop of the inline extraction block of `_process_url` over the
catalog entries, with the guard `if path in url or path == '/'`. -/
def processConfigsLoop (url : String) (meta_info : MetaInfo) (soup : Doc) :
    List (String × FormConfig) → List FormData → List FormData
  | [], forms => forms
  | pc :: rest, forms =>
    processConfigsLoop url meta_info soup rest
      (if strIn pc.1 url || pc.1 == "/" then
        processSelectorsLoop url meta_info soup pc.2.name pc.2.selectors forms
      else forms)

/-- The `forms` list built by the inline extraction code of `_process_url`
(lines 222-265), ignoring the side effect of appending to `self.forms_found`.
`html = none` models the parse raising, caught by the method's outer `except`. -/
def processUrlForms (url : String) (html : Option Doc) : List FormData :=
  match html with
  | none => []
  | some soup =>
    processConfigsLoop url (extract_meta_info soup url) soup form_configs []

/-- Outcome of `session.get(url)` followed by parsing: `err` models a raised
connection error or timeout; `ok status html` models a response with that
status whose body parses to `html` (`none` when the parser raises). -/
inductive FetchOutcome where
  | err : FetchOutcome
  | ok : Nat → Option Doc → FetchOutcome

/-- The instance state `_process_url` mutates: `self.forms_found` and `self.all_urls`. -/
structure SessionState where
  forms_found : List FormData
  all_urls : List String
deriving DecidableEq

/-- One iteration of the link loop of `_process_url` (lines 269-287), on the
accumulator (`self.all_urls`, `new_urls`): skip empty, fragment-only and
`mailto:` hrefs; resolve and normalize the rest; admit a URL when it starts
with the base URL, passes `_should_crawl_url`, and is not yet in `all_urls`;
an admitted URL joins `all_urls`, and joins `new_urls` at the front when some
catalog path fragment occurs in the lower-cased normalized URL, else at the back. -/
def linkStep (base_url url : String) (acc : List String × List String) (href : String) :
    List String × List String :=
  if href == "" || strStarts "#" href || strStarts "mailto:" href then acc
  else
    let full_url := urljoin url href
    let normalized_url := normalize_url full_url
    if strStarts base_url normalized_url && should_crawl_url full_url &&
        !(acc.1.contains normalized_url) then
      if form_configs.any (fun pc => strIn pc.1 (lowerStr normalized_url)) then
        (normalized_url :: acc.1, normalized_url :: acc.2)
      else (normalized_url :: acc.1, acc.2 ++ [normalized_url])
    else acc

/-- The fold of `linkStep` over a page's anchor hrefs. -/
def linkLoop (base_url url : String) : List String → List String × List String →
    List String × List String
  | [], acc => acc
  | href :: rest, acc => linkLoop base_url url rest (linkStep base_url url acc href)

/-- The link loop of `_process_url` over all anchor hrefs, returning the updated
`all_urls` and the `new_urls` list it builds. -/
def processLinks (base_url url : String) (all_urls anchors : List String) :
    List String × List String :=
  linkLoop base_url url anchors (all_urls, [])

/-- Line 263-264: each produced form joins `self.forms_found` unless an equal
record (Python dict equality, i.e. structural equality) is already present. -/
def appendNewForms : List FormData → List FormData → List FormData
  | ff, [] => ff
  | ff, form_data :: rest =>
    appendNewForms (if form_data ∈ ff then ff else ff ++ [form_data]) rest

/-- Model of `WebCrawler._process_url`: on a fetch error, a non-200 status or a parse
failure the URL contributes nothing; otherwise the inline extraction runs (each
produced form is appended to `forms_found` unless already structurally present)
and the link loop produces `new_urls`. -/
def process_url (web : String → FetchOutcome) (base_url : String) (st : SessionState)
    (url : String) : SessionState × List String :=
  match web url with
  | FetchOutcome.err => (st, [])
  | FetchOutcome.ok status html =>
    if status != 200 then (st, [])
    else match html with
      | none => (st, [])
      | some soup =>
        let forms := processUrlForms url (some soup)
        let forms_found := appendNewForms st.forms_found forms
        let pl := processLinks base_url url st.all_urls soup.anchors
        ({ forms_found := forms_found, all_urls := pl.1 }, pl.2)

/-- Modelled from the claim's wording for comparison with `linkStep`: the same
admission test, but every admitted URL is appended at the back, so the
accumulated list records admissions in discovery order. -/
def admitStep (base_url url : String) (acc : List String × List String) (href : String) :
    List String × List String :=
  if href == "" || strStarts "#" href || strStarts "mailto:" href then acc
  else
    let full_url := urljoin url href
    let normalized_url := normalize_url full_url
    if strStarts base_url normalized_url && should_crawl_url full_url &&
        !(acc.1.contains normalized_url) then
      (normalized_url :: acc.1, acc.2 ++ [normalized_url])
    else acc

/-- The fold of `admitStep` over a page's anchor hrefs. -/
def admitLoop (base_url url : String) : List String → List String × List String →
    List String × List String
  | [], acc => acc
  | href :: rest, acc => admitLoop base_url url rest (admitStep base_url url acc href)

/-- The URLs a page's link loop admits, listed in discovery order. -/
def admittedSeq (base_url url : String) (all_urls anchors : List String) : List String :=
  (admitLoop base_url url anchors (all_urls, [])).2

/-- The header row written by `save_forms_to_csv`. -/
def csvHeader : List String :=
  ["Form ID", "URL", "Form Selector", "Success Message Selector", "Fields",
   "Form Type", "Has Meta Description", "Meta Description",
   "Has Meta Keywords", "Meta Keywords", "SEO Issues"]

/-- Python's `str` of a bool, as the csv module renders it. -/
def pyBool (b : Bool) : String :=
  if b then "True" else "False"

/-- The data row `save_forms_to_csv` writes for one form. -/
def formRow (form : FormData) : List String :=
  let fields_str := joinWith ";" (form.fields.map (fun field =>
    field.selector ++ "|" ++ field.type ++ "|" ++
      (if field.required then "required" else "optional")))
  let meta := form.meta_info
  [form.form_id, form.url, form.form_selector, ".success-message", fields_str,
   form.form_type, pyBool meta.has_meta_description, take200 meta.meta_description,
   pyBool meta.has_meta_keywords, take200 meta.meta_keywords, joinWith "; " meta.seo_issues]

/-- The writer loop of `save_forms_to_csv`: one row appended per form. -/
def writeRows : List FormData → List (List String) → List (List String)
  | [], rows => rows
  | form :: rest, rows => writeRows rest (rows ++ [formRow form])

/-- Model of `WebCrawler.save_forms_to_csv` as the list of rows it writes: nothing at all
when no forms were found, else the header row followed by one row per form in
`forms_found` order. -/
def save_forms_to_csv (forms_found : List FormData) : List (List String) :=
  if forms_found.isEmpty then []
  else writeRows forms_found [csvHeader]

/-- The crawl's constructor inputs.  `base_url` holds the already normalized
base URL (the constructor stores `self._normalize_url(base_url)`). -/
structure Config where
  base_url : String
  batch_size : Nat
  max_pages : Nat
  timeout_minutes : Nat
deriving DecidableEq

/-- The reason the crawl loop exits, per the spec's scheduler state machine. -/
inductive StopReason where
  | Completed : StopReason
  | PageLimitReached : StopReason
  | TimedOut : StopReason
deriving DecidableEq

/-- The crawl loop state.  `queue`, `visited`, `forms_found` and `all_urls`
mirror the instance attributes (`visited` and `all_urls` are Python sets,
modelled as duplicate-free lists in insertion order).  `fetched` and `enqLog`
are ghost logs: the URLs handed to `_process_url`, and the URLs ever placed on
`queue`. -/
structure CrawlState where
  queue : List String
  visited : List String
  sess : SessionState
  fetched : List String
  enqLog : List String
deriving DecidableEq

/-- The state after lines 350-352: the base URL seeded into the queue, the
visited set and the known-URL set. -/
def initState (base_url : String) : CrawlState :=
  { queue := [base_url], visited := [base_url],
    sess := { forms_found := [], all_urls := [base_url] },
    fetched := [], enqLog := [base_url] }

/-- The batch dispatch of `_process_url` tasks.  `asyncio` runs them on one
thread and each task's post-fetch block is await-free, so the shared-state
mutations compose sequentially; `asyncio.gather` returns the per-task link
lists in dispatch order, which is the order modelled here. -/
def batchFold (web : String → FetchOutcome) (base_url : String) :
    List String → SessionState × List (List String) → SessionState × List (List String)
  | [], acc => acc
  | url :: rest, acc =>
    batchFold web base_url rest
      (let r := process_url web base_url acc.1 url
       (r.1, acc.2 ++ [r.2]))

/-- Lines 363-365: for each task's `new_urls`, the not-yet-visited ones are
appended to the queue and added to the visited set (and recorded in the
`enqLog` ghost).  The accumulator is (queue, visited, enqLog). -/
def applyResults : List String × List String × List String → List (List String) →
    List String × List String × List String
  | acc, [] => acc
  | acc, new_urls :: rest =>
    applyResults
      (let fresh := new_urls.filter (fun u => !(acc.2.1.contains u))
       (acc.1 ++ fresh, acc.2.1 ++ fresh, acc.2.2 ++ fresh)) rest

/-- One iteration of the `while` body of `crawl` (lines 355-365). -/
def crawlStep (web : String → FetchOutcome) (cfg : Config) (st : CrawlState) : CrawlState :=
  let current_batch := st.queue.take cfg.batch_size
  let rest := st.queue.drop cfg.batch_size
  let b := batchFold web cfg.base_url current_batch (st.sess, [])
  let upd := applyResults (rest, st.visited, st.enqLog) b.2
  { queue := upd.1, visited := upd.2.1, sess := b.1,
    fetched := st.fetched ++ current_batch, enqLog := upd.2.2 }

/-- Model of `WebCrawler._should_stop_crawling`: page budget first, then elapsed time. -/
def should_stop_crawling (cfg : Config) (visitedCount elapsed_minutes : Nat) : Bool :=
  if visitedCount ≥ cfg.max_pages then true
  else if elapsed_minutes ≥ cfg.timeout_minutes then true
  else false

/-- The `while self.queue and not self._should_stop_crawling()` loop.  `times i`
is the elapsed minutes observed at the i-th check; `fuel` bounds the number of
iterations, `none` meaning the bound was hit before the loop exited.  The exit
reason replays the short-circuit order of the checks: empty queue first, then
the page budget, then the time budget. -/
def crawlLoop (web : String → FetchOutcome) (cfg : Config) (times : Nat → Nat) :
    Nat → Nat → CrawlState → Option (StopReason × CrawlState)
  | 0, _, _ => none
  | Nat.succ fuel, i, st =>
    if st.queue.isEmpty then some (StopReason.Completed, st)
    else if should_stop_crawling cfg st.visited.length (times i) then
      some (if st.visited.length ≥ cfg.max_pages then StopReason.PageLimitReached
            else StopReason.TimedOut, st)
    else crawlLoop web cfg times fuel (i + 1) (crawlStep web cfg st)

/-- Model of `WebCrawler.crawl`: seed the state from the base URL and run the loop. -/
def crawl (web : String → FetchOutcome) (cfg : Config) (times : Nat → Nat) (fuel : Nat) :
    Option (StopReason × CrawlState) :=
  crawlLoop web cfg times fuel 0 (initState cfg.base_url)

/-- One batch run under an explicit completion order: `order` lists batch
indices in the order the fetches complete, and each task's await-free post-fetch
block (form appends, `all_urls` updates) runs when its fetch completes. -/
def runBatchInOrder (web : String → FetchOutcome) (base_url : String) (sess : SessionState)
    (batch : List String) (order : List Nat) : SessionState :=
  order.foldl (fun s i =>
    match batch.get? i with
    | some url => (process_url web base_url s url).1
    | none => s) sess

/-- Every URL in the enqueue log entered the queue exactly once and was recorded
in `all_urls` at admission. -/
def enqOnce : Option (StopReason × CrawlState) → Prop
  | none => True
  | some r => r.2.enqLog.Nodup ∧ ∀ u ∈ r.2.enqLog, u ∈ r.2.sess.all_urls

/-! ### Concrete pages, sites and states used in the counterexamples and witnesses -/

/-- A page with no matching forms, no meta tags and no links. -/
def noDoc : Doc := { selectOne := fun _ => none, findMeta := fun _ => none, anchors := [] }

/-- An email input carrying a `required` attribute and no `type` attribute. -/
def emailField : Element := { tag := "input", attrs := [("name", "email"), ("required", "")] }

/-- The home-recommendations form, with its id attribute and one visible field. -/
def homeForm : FormElem :=
  { attrs := [("id", "home-recommendations")], controls := [emailField] }

/-- A page on which the root-entry selector `form#home-recommendations` matches. -/
def aboutDoc : Doc :=
  { noDoc with
    selectOne := fun s => if s == "form#home-recommendations" then some homeForm else none }

/-- A root page that only links to `/about`. -/
def rootDoc : Doc := { noDoc with anchors := ["http://site.test/about"] }

/-- A two-page site: the root links to `/about`, whose document carries the
home-recommendations form; nothing else resolves. -/
def c1web : String → FetchOutcome := fun u =>
  if u == "http://site.test" then FetchOutcome.ok 200 (some rootDoc)
  else if u == "http://site.test/about" then FetchOutcome.ok 200 (some aboutDoc)
  else FetchOutcome.err

/-- A crawl configuration with default budgets over `http://site.test`. -/
def c1cfg : Config :=
  { base_url := "http://site.test", batch_size := 5, max_pages := 500, timeout_minutes := 30 }

/-- A time trace on which the time budget never fires. -/
def ztimes : Nat → Nat := fun _ => 0

/-- A root page linking to two plain pages `/a` and `/b`. -/
def c2rootDoc : Doc := { noDoc with anchors := ["http://site.test/a", "http://site.test/b"] }

/-- A site whose root links to `/a` and `/b`; every other URL is a blank page. -/
def c2web : String → FetchOutcome := fun u =>
  if u == "http://site.test" then FetchOutcome.ok 200 (some c2rootDoc)
  else FetchOutcome.ok 200 (some noDoc)

/-- A crawl configuration with a page budget of 2. -/
def c2cfg : Config :=
  { base_url := "http://site.test", batch_size := 5, max_pages := 2, timeout_minutes := 30 }

/-- A page at `/x2` linking to the contact page. -/
def c3x2Doc : Doc := { noDoc with anchors := ["http://site.test/contact-us"] }

/-- A site where `/x2` links to `/contact-us`; every other URL is a blank page. -/
def c3web : String → FetchOutcome := fun u =>
  if u == "http://site.test/x2" then FetchOutcome.ok 200 (some c3x2Doc)
  else FetchOutcome.ok 200 (some noDoc)

/-- A crawl configuration fetching one page per batch. -/
def c3cfg : Config :=
  { base_url := "http://site.test", batch_size := 1, max_pages := 500, timeout_minutes := 30 }

/-- A mid-crawl state: the root has been fetched and the plain pages `/x2` and
`/x1` are waiting in the queue. -/
def c3st : CrawlState :=
  { queue := ["http://site.test/x2", "http://site.test/x1"],
    visited := ["http://site.test", "http://site.test/x2", "http://site.test/x1"],
    sess := { forms_found := [],
              all_urls := ["http://site.test/x1", "http://site.test/x2", "http://site.test"] },
    fetched := ["http://site.test"],
    enqLog := ["http://site.test", "http://site.test/x2", "http://site.test/x1"] }

/-- A text input named `name`, not required. -/
def nameField : Element := { tag := "input", attrs := [("name", "name")] }

/-- A textarea named `msg`. -/
def msgField : Element := { tag := "textarea", attrs := [("name", "msg")] }

/-- A contact page whose `form.contact-form` has no id and one visible field. -/
def contactDoc : Doc :=
  { noDoc with
    selectOne := fun s =>
      if s == "form.contact-form" then some { attrs := [], controls := [nameField] } else none }

/-- An advice page whose `form.deciding-help-form` has one visible field. -/
def adviceDoc : Doc :=
  { noDoc with
    selectOne := fun s =>
      if s == "form.deciding-help-form" then some { attrs := [], controls := [msgField] }
      else none }

/-- The contact page URL. -/
def c5u1 : String := "http://site.test/contact-us"

/-- The advice page URL. -/
def c5u2 : String := "http://site.test/get-free-advice"

/-- A site serving the contact and advice pages, each bearing one form. -/
def c5web : String → FetchOutcome := fun u =>
  if u == c5u1 then FetchOutcome.ok 200 (some contactDoc)
  else if u == c5u2 then FetchOutcome.ok 200 (some adviceDoc)
  else FetchOutcome.err

/-- A session state in which both pages are already known to the frontier. -/
def c5sess : SessionState :=
  { forms_found := [], all_urls := ["http://site.test", c5u1, c5u2] }

/-- The form record the crawler extracts from `contactDoc` at the contact URL. -/
def contactRec : FormData :=
  { url := "http://site.test/contact-us", form_id := "contact-",
    form_selector := "form.contact-form", form_type := "Contact Form",
    fields := [{ selector := "input[name=" ++ sq ++ "name" ++ sq ++ "]",
                 type := "text", required := false }],
    meta_info := { url := "http://site.test/contact-us", has_meta_keywords := false,
                   has_meta_description := false, meta_keywords := "",
                   meta_description := "",
                   seo_issues := ["Missing meta description", "Missing meta keywords"] } }

/-- A meta description tag whose content attribute is the empty string. -/
def emptyDescMeta : Element := { tag := "meta", attrs := [("content", "")] }

/-- A page with an empty-content description meta tag and no keywords tag. -/
def emptyDescDoc : Doc :=
  { noDoc with findMeta := fun n => if n == "description" then some emptyDescMeta else none }

/-- A site on which every fetch raises. -/
def c9web : String → FetchOutcome := fun _ => FetchOutcome.err

/-! ### Helper lemmas -/

/-- The selector loop accumulates exactly the per-selector contributions, in order. -/
lemma processSelectorsLoop_eq (url : String) (mi : MetaInfo) (soup : Doc) (nm : String) :
    ∀ (sels : List String) (forms : List FormData),
      processSelectorsLoop url mi soup nm sels forms
        = forms ++ (sels.map (selectorForms url mi soup nm)).flatten := by
  intro sels
  induction sels with
  | nil => intro forms; simp [processSelectorsLoop]
  | cons s rest ih =>
    intro forms
    rw [processSelectorsLoop, ih]
    cases h : soup.selectOne s with
    | none => simp [selectorForms, h]
    | some form =>
      by_cases hf : (extractFields form.controls).isEmpty = true
      · simp [selectorForms, h, hf]
      · simp [selectorForms, h, hf]

/-- The catalog loop accumulates exactly the per-entry contributions, in order. -/
lemma processConfigsLoop_eq (url : String) (mi : MetaInfo) (soup : Doc) :
    ∀ (l : List (String × FormConfig)) (forms : List FormData),
      processConfigsLoop url mi soup l forms
        = forms ++ (l.map (entryForms url mi soup)).flatten := by
  intro l
  induction l with
  | nil => intro forms; simp [processConfigsLoop]
  | cons pc rest ih =>
    intro forms
    rw [processConfigsLoop, ih]
    by_cases h : (strIn pc.1 url || pc.1 == "/") = true
    · simp [entryForms, h, processSelectorsLoop_eq]
    · simp [entryForms, h]

/-- The CSV writer loop appends one row per form, in list order. -/
lemma writeRows_eq : ∀ (l : List FormData) (rows : List (List String)),
    writeRows l rows = rows ++ l.map formRow := by
  intro l
  induction l with
  | nil => intro rows; simp [writeRows]
  | cons f rest ih => intro rows; rw [writeRows, ih]; simp

/-! ### Claims -/

/-- C10: for every url string and every html string, the form-record list
returned by the never-called helper `_extract_form_info(url, html)` equals,
element for element and in the same order, the list the inline extraction code
of `_process_url` builds from the same url and html (ignoring the
`forms_found` side effect): the two duplicated code paths are behaviorally
equivalent. -/
theorem C10_duplicated_extraction_paths_agree :
    ∀ (url : String) (html : Option Doc),
      processUrlForms url html = extract_form_info url html := by
  intro url html
  cases html with
  | none => rfl
  | some soup =>
    simp only [processUrlForms, extract_form_info]
    rw [processConfigsLoop_eq]
    exact List.nil_append _

/-- C7: for every page, the MetaInfo produced for each of the description and
keywords tags satisfies exactly one of: tag absent — flag false and the
"Missing meta ..." issue recorded; tag present with (stripped-)empty content —
flag false and the "Empty meta ..." issue (not "Missing ...") recorded; tag
present with non-empty content — flag true and neither issue recorded. -/
theorem C7_meta_trichotomy :
    ∀ (soup : Doc) (url : String),
      (soup.findMeta "description" = none →
        (extract_meta_info soup url).has_meta_description = false ∧
        "Missing meta description" ∈ (extract_meta_info soup url).seo_issues ∧
        "Empty meta description" ∉ (extract_meta_info soup url).seo_issues) ∧
      (∀ e, soup.findMeta "description" = some e →
        trimStr (getAttr e.attrs "content" "") = "" →
        (extract_meta_info soup url).has_meta_description = false ∧
        "Empty meta description" ∈ (extract_meta_info soup url).seo_issues ∧
        "Missing meta description" ∉ (extract_meta_info soup url).seo_issues) ∧
      (∀ e, soup.findMeta "description" = some e →
        trimStr (getAttr e.attrs "content" "") ≠ "" →
        (extract_meta_info soup url).has_meta_description = true ∧
        "Missing meta description" ∉ (extract_meta_info soup url).seo_issues ∧
        "Empty meta description" ∉ (extract_meta_info soup url).seo_issues) ∧
      (soup.findMeta "keywords" = none →
        (extract_meta_info soup url).has_meta_keywords = false ∧
        "Missing meta keywords" ∈ (extract_meta_info soup url).seo_issues ∧
        "Empty meta keywords" ∉ (extract_meta_info soup url).seo_issues) ∧
      (∀ e, soup.findMeta "keywords" = some e →
        trimStr (getAttr e.attrs "content" "") = "" →
        (extract_meta_info soup url).has_meta_keywords = false ∧
        "Empty meta keywords" ∈ (extract_meta_info soup url).seo_issues ∧
        "Missing meta keywords" ∉ (extract_meta_info soup url).seo_issues) ∧
      (∀ e, soup.findMeta "keywords" = some e →
        trimStr (getAttr e.attrs "content" "") ≠ "" →
        (extract_meta_info soup url).has_meta_keywords = true ∧
        "Missing meta keywords" ∉ (extract_meta_info soup url).seo_issues ∧
        "Empty meta keywords" ∉ (extract_meta_info soup url).seo_issues) := by
  intro soup url
  refine ⟨?_, ?_, ?_, ?_, ?_, ?_⟩
  · intro hd
    cases hk : soup.findMeta "keywords" with
    | none => simp [extract_meta_info, hd, hk]
    | some e =>
      by_cases h : trimStr (getAttr e.attrs "content" "") = ""
      · simp [extract_meta_info, hd, hk, h]
      · simp [extract_meta_info, hd, hk, h]
  · intro e hd h
    cases hk : soup.findMeta "keywords" with
    | none => simp [extract_meta_info, hd, hk, h]
    | some e2 =>
      by_cases h2 : trimStr (getAttr e2.attrs "content" "") = ""
      · simp [extract_meta_info, hd, hk, h, h2]
      · simp [extract_meta_info, hd, hk, h, h2]
  · intro e hd h
    cases hk : soup.findMeta "keywords" with
    | none => simp [extract_meta_info, hd, hk, h]
    | some e2 =>
      by_cases h2 : trimStr (getAttr e2.attrs "content" "") = ""
      · simp [extract_meta_info, hd, hk, h, h2]
      · simp [extract_meta_info, hd, hk, h, h2]
  · intro hk
    cases hd : soup.findMeta "description" with
    | none => simp [extract_meta_info, hd, hk]
    | some e =>
      by_cases h : trimStr (getAttr e.attrs "content" "") = ""
      · simp [extract_meta_info, hd, hk, h]
      · simp [extract_meta_info, hd, hk, h]
  · intro e hk h
    cases hd : soup.findMeta "description" with
    | none => simp [extract_meta_info, hd, hk, h]
    | some e2 =>
      by_cases h2 : trimStr (getAttr e2.attrs "content" "") = ""
      · simp [extract_meta_info, hd, hk, h, h2]
      · simp [extract_meta_info, hd, hk, h, h2]
  · intro e hk h
    cases hd : soup.findMeta "description" with
    | none => simp [extract_meta_info, hd, hk, h]
    | some e2 =>
      by_cases h2 : trimStr (getAttr e2.attrs "content" "") = ""
      · simp [extract_meta_info, hd, hk, h, h2]
      · simp [extract_meta_info, hd, hk, h, h2]

/-- Witness for C7: on a page whose description meta tag has empty content and
which lacks a keywords tag, the flag is false and exactly the "Empty meta
description" issue (not "Missing") is recorded for the description. -/
theorem C7_meta_trichotomy_witness :
    (extract_meta_info emptyDescDoc "http://site.test").has_meta_description = false ∧
    "Empty meta description" ∈ (extract_meta_info emptyDescDoc "http://site.test").seo_issues ∧
    "Missing meta description" ∉ (extract_meta_info emptyDescDoc "http://site.test").seo_issues :=
  (C7_meta_trichotomy emptyDescDoc "http://site.test").2.1 emptyDescMeta (by decide) (by decide)

/-- C9: for every URL processed during a crawl, a fetch failure (raised
connection error or timeout, non-200 status) or a parse failure results in
that URL contributing zero forms (the session state, `forms_found` included,
is unchanged) and zero links, and the per-URL step returns normally. -/
theorem C9_per_url_failure_is_contained :
    ∀ (web : String → FetchOutcome) (base_url : String) (st : SessionState) (url : String),
      (web url = FetchOutcome.err → process_url web base_url st url = (st, [])) ∧
      (∀ status html, web url = FetchOutcome.ok status html → status ≠ 200 →
        process_url web base_url st url = (st, [])) ∧
      (∀ status, web url = FetchOutcome.ok status none →
        process_url web base_url st url = (st, [])) := by
  intro web base_url st url
  refine ⟨fun h => by simp [process_url, h], ?_, ?_⟩
  · intro status html h hs
    simp [process_url, h, hs]
  · intro status h
    by_cases hs : status = 200
    · simp [process_url, h, hs]
    · simp [process_url, h, hs]

/-- Witness for C9: on a site where every fetch raises, a URL contributes
nothing and leaves the session state untouched. -/
theorem C9_per_url_failure_is_contained_witness :
    process_url c9web "http://site.test" { forms_found := [], all_urls := [] } "http://site.test/x"
      = ({ forms_found := [], all_urls := [] }, []) :=
  (C9_per_url_failure_is_contained c9web "http://site.test"
    { forms_found := [], all_urls := [] } "http://site.test/x").1 rfl

/-- Counterexample for C5: one batch of two form-bearing pages, dispatched as
`[u1, u2]`.  When the fetches complete in dispatch order the report rows come
out `[contact, advice]`; when they complete in the reverse order the rows come
out `[advice, contact]`.  The row order therefore depends on the completion
order of the concurrent fetches within the batch, contradicting the claim that
it is independent of it. -/
theorem C5_counterexample_row_order_depends_on_completion :
    save_forms_to_csv
        (runBatchInOrder c5web "http://site.test" c5sess [c5u1, c5u2] [0, 1]).forms_found
      ≠ save_forms_to_csv
        (runBatchInOrder c5web "http://site.test" c5sess [c5u1, c5u2] [1, 0]).forms_found := by
  decide

/-- C5 amended: the final report's row order equals the order in which
FormRecords were first appended to `forms_found` (header first, then one row
per record in list order); but within a batch the records are appended by each
task's post-fetch block, i.e. in fetch completion order — reversing the
completion order of a two-page batch is the same as processing the pages in the
swapped sequence — so the row order is not independent of completion order. -/
theorem C5_amended_rows_follow_append_order :
    (∀ forms_found : List FormData, forms_found.isEmpty = false →
      save_forms_to_csv forms_found = csvHeader :: forms_found.map formRow) ∧
    (∀ (web : String → FetchOutcome) (base_url : String) (sess : SessionState) (u1 u2 : String),
      runBatchInOrder web base_url sess [u1, u2] [1, 0]
        = (process_url web base_url (process_url web base_url sess u2).1 u1).1) := by
  constructor
  · intro ff h
    simp [save_forms_to_csv, h, writeRows_eq]
  · intro web base_url sess u1 u2
    rfl

/-- Witness for C5 amended: a one-record report is the header row followed by
that record's row. -/
theorem C5_amended_rows_follow_append_order_witness :
    save_forms_to_csv [contactRec] = csvHeader :: [contactRec].map formRow :=
  C5_amended_rows_follow_append_order.1 [contactRec] rfl

/-- Any record in the extraction output comes from a catalog entry whose guard
held, a selector of that entry matched by `select_one`, and a non-empty
surviving field list, and the record is exactly the one the source constructs. -/
lemma extract_mem (url : String) (soup : Doc) (rec : FormData) :
    rec ∈ extract_form_info url (some soup) →
    ∃ pc ∈ form_configs, ∃ sel ∈ pc.2.selectors, ∃ form,
      soup.selectOne sel = some form ∧
      (extractFields form.controls).isEmpty = false ∧
      rec = { url := url,
              form_id :=
                (let i := getAttr form.attrs "id" ""
                 if i == "" then stripBoth ".#" (removeWordStr "form" sel) else i),
              form_selector := sel, form_type := pc.2.name,
              fields := extractFields form.controls,
              meta_info := extract_meta_info soup url } := by
  intro h
  simp only [extract_form_info, List.mem_flatten, List.mem_map] at h
  obtain ⟨l, ⟨pc, hpc, rfl⟩, hrec⟩ := h
  unfold entryForms at hrec
  by_cases hg : (strIn pc.1 url || pc.1 == "/") = true
  · rw [if_pos hg] at hrec
    simp only [List.mem_flatten, List.mem_map] at hrec
    obtain ⟨l2, ⟨sel, hsel, rfl⟩, hrec⟩ := hrec
    simp only [selectorForms] at hrec
    cases hso : soup.selectOne sel with
    | none => rw [hso] at hrec; simp at hrec
    | some form =>
      rw [hso] at hrec
      by_cases hf : (extractFields form.controls).isEmpty = true
      · simp [hf] at hrec
      · simp only [hf, if_false, Bool.false_eq_true, List.mem_singleton] at hrec
        refine ⟨pc, hpc, sel, hsel, form, hso, ?_, hrec⟩
        simpa only [Bool.not_eq_true] using hf
  · rw [if_neg hg] at hrec
    simp at hrec

/-- No field record produced by the field loop has type `hidden` or `submit`. -/
lemma extractFields_types : ∀ (l : List Element), ∀ fd ∈ extractFields l,
    fd.type ≠ "hidden" ∧ fd.type ≠ "submit" := by
  intro l
  induction l with
  | nil => simp [extractFields]
  | cons field rest ih =>
    intro fd hfd
    simp only [extractFields] at hfd
    split at hfd
    all_goals
      split at hfd
      · exact ih fd hfd
      · next hcond =>
        rcases List.mem_cons.mp hfd with rfl | hmem
        · simp only [Bool.or_eq_true, beq_iff_eq, not_or] at hcond
          simpa using hcond
        · exact ih fd hmem

/-- C6: for every matched form element, fields of type `hidden` or `submit`
never appear in the resulting field list, and a form whose surviving field list
is empty never produces a FormRecord — so every emitted record has a non-empty
field list all of whose fields are neither hidden nor submit. -/
theorem C6_hidden_and_submit_fields_excluded :
    ∀ (url : String) (soup : Doc) (rec : FormData), rec ∈ extract_form_info url (some soup) →
      rec.fields ≠ [] ∧ ∀ fd ∈ rec.fields, fd.type ≠ "hidden" ∧ fd.type ≠ "submit" := by
  intro url soup rec h
  obtain ⟨pc, hpc, sel, hsel, form, hso, hne, rfl⟩ := extract_mem url soup rec h
  constructor
  · simpa [List.isEmpty_iff] using hne
  · intro fd hfd
    exact extractFields_types form.controls fd hfd

/-- Witness for C6: the record extracted from the contact page has a non-empty
field list with no hidden or submit field. -/
theorem C6_hidden_and_submit_fields_excluded_witness :
    contactRec.fields ≠ [] ∧
    ∀ fd ∈ contactRec.fields, fd.type ≠ "hidden" ∧ fd.type ≠ "submit" :=
  C6_hidden_and_submit_fields_excluded "http://site.test/contact-us" contactDoc contactRec
    (by decide)

/-- C8: for every emitted FormRecord, `formId` equals the matched element's id
attribute when that attribute is present and non-empty, and otherwise equals
the matching selector with the literal word `form` removed and any leading `.`
or `#` characters stripped.  (The source strips `.`/`#` from both ends via
`strip('.#')`; on every catalog selector this coincides with stripping leading
characters only, which the `decide` over `allSelectors` checks.) -/
theorem C8_form_id_rule :
    ∀ (url : String) (soup : Doc) (rec : FormData), rec ∈ extract_form_info url (some soup) →
      ∃ form, soup.selectOne rec.form_selector = some form ∧
        rec.form_id =
          (if getAttr form.attrs "id" "" ≠ "" then getAttr form.attrs "id" ""
           else specFormIdFallback rec.form_selector) := by
  intro url soup rec h
  obtain ⟨pc, hpc, sel, hsel, form, hso, hne, rfl⟩ := extract_mem url soup rec h
  refine ⟨form, by simpa using hso, ?_⟩
  have hsel2 : sel ∈ allSelectors := by
    simp only [allSelectors, List.mem_flatten, List.mem_map]
    exact ⟨pc.2.selectors, ⟨pc, hpc, rfl⟩, hsel⟩
  have hagree : ∀ s ∈ allSelectors,
      stripBoth ".#" (removeWordStr "form" s) = specFormIdFallback s := by decide
  by_cases hid : getAttr form.attrs "id" "" = ""
  · simp [hid, hagree sel hsel2]
  · simp [hid]

/-- Witness for C8: the contact form has no id attribute, so its record's
form id is the fallback `contact-` computed from `form.contact-form`. -/
theorem C8_form_id_rule_witness :
    ∃ form, contactDoc.selectOne contactRec.form_selector = some form ∧
      contactRec.form_id =
        (if getAttr form.attrs "id" "" ≠ "" then getAttr form.attrs "id" ""
         else specFormIdFallback contactRec.form_selector) :=
  C8_form_id_rule "http://site.test/contact-us" contactDoc contactRec (by decide)

/-- Entries whose guard fails contribute nothing, so the extraction scan equals
the scan over the guard-filtered catalog. -/
lemma entryForms_filter (url : String) (mi : MetaInfo) (soup : Doc) :
    ∀ l : List (String × FormConfig),
      (l.map (entryForms url mi soup)).flatten
        = ((l.filter (fun pc => strIn pc.1 url || pc.1 == "/")).map
            (entryForms url mi soup)).flatten := by
  intro l
  induction l with
  | nil => rfl
  | cons pc rest ih =>
    by_cases h : (strIn pc.1 url || pc.1 == "/") = true
    · simp only [List.map_cons, List.flatten_cons, List.filter_cons, h, if_true, ih]
    · have hz : entryForms url mi soup pc = [] := by simp [entryForms, h]
      simp only [List.map_cons, List.flatten_cons, List.filter_cons, h, hz, ih]
      simp

/-- Counterexample for C1: on a crawl rooted at `http://site.test`, the page
`http://site.test/about` — which is not the crawl root — yields a FormRecord
from the root-sentinel catalog entry (`Get Free Recommendations`), because the
source guard `path in url or path == '/'` is unconditionally true for the
sentinel.  This contradicts the claim that the root-sentinel entry is applied
to no page other than the crawl root. -/
theorem C1_counterexample_root_entry_fires_off_root :
    (crawl c1web c1cfg ztimes 4).map
        (fun r => r.2.sess.forms_found.map (fun f => (f.form_type, f.url)))
      = some [("Get Free Recommendations", "http://site.test/about")] ∧
    "http://site.test/about" ≠ "http://site.test" := by
  constructor
  · decide
  · decide

/-- C1 amended: a catalog entry's selectors are attempted on a page if and only
if the entry's `pathFragment` is a substring of the page's full URL string, or
the fragment is the root sentinel `/` — in which case the guard holds
unconditionally, so the root-sentinel entry is attempted on every page, and a
fragment occurring anywhere in the URL (host included) triggers its entry. -/
theorem C1_amended_guard_is_full_url_substring :
    (∀ (url : String) (soup : Doc),
      extract_form_info url (some soup)
        = ((attemptedEntries url).map (entryForms url (extract_meta_info soup url) soup)).flatten) ∧
    (∀ url : String,
      ("/", { name := "Get Free Recommendations", selectors := ["form#home-recommendations"] })
        ∈ attemptedEntries url) ∧
    (∀ (url : String) (pc : String × FormConfig),
      pc ∈ attemptedEntries url ↔ pc ∈ form_configs ∧ (strIn pc.1 url = true ∨ pc.1 = "/")) := by
  refine ⟨?_, ?_, ?_⟩
  · intro url soup
    simp only [extract_form_info, attemptedEntries]
    exact entryForms_filter url _ soup form_configs
  · intro url
    exact List.mem_filter.mpr ⟨List.mem_cons_self _ _, by simp⟩
  · intro url pc
    rw [attemptedEntries, List.mem_filter]
    simp

/-- Applying a batch's results appends one common block to the queue, the
visited set and the enqueue log, and that block is drawn from the results. -/
lemma applyResults_shape : ∀ (results : List (List String)) (q v e : List String),
    ∃ fr, applyResults (q, v, e) results = (q ++ fr, v ++ fr, e ++ fr) ∧
      ∀ u ∈ fr, u ∈ results.flatten := by
  intro results
  induction results with
  | nil => intro q v e; exact ⟨[], by simp [applyResults], by simp⟩
  | cons r rest ih =>
    intro q v e
    rw [applyResults]
    obtain ⟨fr, heq, hsub⟩ := ih (q ++ r.filter (fun u => !(v.contains u)))
      (v ++ r.filter (fun u => !(v.contains u))) (e ++ r.filter (fun u => !(v.contains u)))
    refine ⟨r.filter (fun u => !(v.contains u)) ++ fr, ?_, ?_⟩
    · simp only [heq, List.append_assoc]
    · intro u hu
      rcases List.mem_append.mp hu with h1 | h2
      · exact List.mem_flatten.mpr ⟨r, List.mem_cons_self _ _, (List.mem_filter.mp h1).1⟩
      · have := hsub u h2
        rw [List.flatten_cons]
        exact List.mem_append.mpr (Or.inr this)

/-- One crawl iteration appends the same freshly admitted block to the rest of
the queue, to the visited set and to the enqueue log. -/
lemma crawlStep_shape (web : String → FetchOutcome) (cfg : Config) (st : CrawlState) :
    ∃ fr, (crawlStep web cfg st).queue = st.queue.drop cfg.batch_size ++ fr ∧
      (crawlStep web cfg st).visited = st.visited ++ fr ∧
      (crawlStep web cfg st).enqLog = st.enqLog ++ fr := by
  obtain ⟨fr, heq, _⟩ := applyResults_shape
    (batchFold web cfg.base_url (st.queue.take cfg.batch_size) (st.sess, [])).2
    (st.queue.drop cfg.batch_size) st.visited st.enqLog
  exact ⟨fr, by simp [crawlStep, heq], by simp [crawlStep, heq], by simp [crawlStep, heq]⟩

/-- Counterexample for C2: on a root page linking to `/a` and `/b` with
`maxPages = 2`, the crawl stops in `PageLimitReached` with
`visited = {base, /b, /a}` although only the base URL was ever fetched: the
discovered links were marked visited without being fetched, so `visited` does
not contain exactly the URLs that have actually been fetched. -/
theorem C2_counterexample_visited_includes_unfetched :
    (crawl c2web c2cfg ztimes 3).map (fun r => (r.1, r.2.visited, r.2.fetched))
      = some (StopReason.PageLimitReached,
          ["http://site.test", "http://site.test/b", "http://site.test/a"],
          ["http://site.test"]) ∧
    "http://site.test/b" ∉ (["http://site.test"] : List String) :=
  ⟨by decide, by decide⟩

/-- C2 amended: `visited` is seeded with the base URL before any fetch and then
grows, each iteration, by exactly the newly admitted (enqueued) URLs — i.e. it
counts discovered-and-queued pages, not fetched pages.  Consequently with
`maxPages = 1` the crawl stops at the very first loop check, before fetching
anything, in state `PageLimitReached` with `visited = {base}` of size exactly 1
and an untouched frontier. -/
theorem C2_amended_visited_counts_discovered :
    (∀ (web : String → FetchOutcome) (times : Nat → Nat) (fuel : Nat)
        (base_url : String) (bs tmo : Nat),
      crawl web ⟨base_url, bs, 1, tmo⟩ times (fuel + 1)
        = some (StopReason.PageLimitReached, initState base_url) ∧
      (initState base_url).visited = [base_url] ∧ (initState base_url).fetched = []) ∧
    (∀ (web : String → FetchOutcome) (cfg : Config) (st : CrawlState),
      (crawlStep web cfg st).visited
        = st.visited ++ ((crawlStep web cfg st).enqLog.drop st.enqLog.length)) := by
  constructor
  · intro web times fuel base_url bs tmo
    refine ⟨?_, rfl, rfl⟩
    simp [crawl, crawlLoop, initState, should_stop_crawling]
  · intro web cfg st
    obtain ⟨fr, hq, hv, he⟩ := crawlStep_shape web cfg st
    rw [hv, he, List.drop_left]

/-- Counterexample for C3: from the mid-crawl state `c3st` whose queue holds
the plain pages `/x2` and `/x1`, processing `/x2` admits the priority URL
`/contact-us` (its path contains the catalog fragment `contact-us`, while
`/x1`'s path contains no fragment other than the sentinel); the resulting
queue is `[/x1, /contact-us]` — the priority URL sits at the back, behind the
waiting URL, not at the front of the queue. -/
theorem C3_counterexample_priority_url_behind_waiting :
    (crawlStep c3web c3cfg c3st).queue
      = ["http://site.test/x1", "http://site.test/contact-us"] ∧
    strIn "contact-us" (urlparse "http://site.test/contact-us").path = true ∧
    form_configs.all
      (fun pc => pc.1 == "/" || !(strIn pc.1 (urlparse "http://site.test/x1").path)) = true :=
  ⟨by decide, by decide, by decide⟩

/-- Characterization of Python string prefixes. -/
lemma leadsWith_iff : ∀ (a b : List Char), leadsWith a b = true ↔ a <+: b := by
  intro a
  induction a with
  | nil => intro b; simp [leadsWith]
  | cons x xs ih =>
    intro b
    cases b with
    | nil => simp [leadsWith]
    | cons y ys =>
      rw [leadsWith]
      simp [ih, List.cons_prefix_cons, And.comm]

/-- Characterization of Python substring containment. -/
lemma hasSub_iff : ∀ (h n : List Char), hasSub n h = true ↔ n <:+: h := by
  intro h
  induction h with
  | nil =>
    intro n
    rw [hasSub]
    cases n with
    | nil => simp [leadsWith]
    | cons c t => simp [leadsWith]
  | cons c t ih =>
    intro n
    rw [hasSub]
    simp only [Bool.or_eq_true, leadsWith_iff, ih]
    constructor
    · rintro (hp | hi)
      · exact hp.isInfix
      · exact hi.trans (List.suffix_cons c t).isInfix
    · rintro ⟨s, tl, heq⟩
      cases s with
      | nil => exact Or.inl ⟨tl, by simpa using heq⟩
      | cons a as =>
        right
        injection heq with h1 h2
        exact ⟨as, tl, h2⟩

/-- Characters of a lower-cased string. -/
lemma lower_data (s : String) : (lowerStr s).data = s.data.map Char.toLower := rfl

/-- On any URL that extends a base URL containing a slash — every normalized
URL that passes the same-site check does — the priority test of line 281
succeeds, because the root sentinel `/` is among the catalog fragments and is
a substring of the URL. -/
lemma priorityTest_true (base_url nu : String) (hb : strIn "/" (lowerStr base_url) = true)
    (hp : strStarts base_url nu = true) :
    form_configs.any (fun pc => strIn pc.1 (lowerStr nu)) = true := by
  apply List.any_eq_true.mpr
  refine ⟨("/", { name := "Get Free Recommendations", selectors := ["form#home-recommendations"] }),
    List.mem_cons_self _ _, ?_⟩
  rw [strIn] at hb ⊢
  rw [strStarts, leadsWith_iff] at hp
  rw [hasSub_iff] at hb ⊢
  have hmap : (lowerStr base_url).data <+: (lowerStr nu).data := by
    rw [lower_data, lower_data]
    exact hp.map Char.toLower
  exact hb.trans hmap.isInfix

/-- The link loop equals the discovery-order admission loop with its output
reversed: every admitted URL takes the front-insertion branch. -/
lemma linkLoop_reverse (base_url url : String) (hb : strIn "/" (lowerStr base_url) = true) :
    ∀ (anchors allU nusL nusA : List String),
      nusL = nusA.reverse →
      (linkLoop base_url url anchors (allU, nusL)).1
          = (admitLoop base_url url anchors (allU, nusA)).1 ∧
      (linkLoop base_url url anchors (allU, nusL)).2
          = (admitLoop base_url url anchors (allU, nusA)).2.reverse := by
  intro anchors
  induction anchors with
  | nil => intro allU nusL nusA h; exact ⟨rfl, by simpa [linkLoop, admitLoop] using h⟩
  | cons href rest ih =>
    intro allU nusL nusA h
    have hstep : linkStep base_url url (allU, nusL) href
        = ((admitStep base_url url (allU, nusA) href).1,
           (admitStep base_url url (allU, nusA) href).2.reverse) := by
      simp only [linkStep, admitStep]
      by_cases h1 : (href == "" || strStarts "#" href || strStarts "mailto:" href) = true
      · simp [h1, h]
      · simp only [h1, if_false, Bool.false_eq_true]
        split
        · next hcond =>
          have hs : strStarts base_url (normalize_url (urljoin url href)) = true := by
            simp only [Bool.and_eq_true] at hcond
            exact hcond.1.1
          have hpri := priorityTest_true base_url (normalize_url (urljoin url href)) hb hs
          simp [hcond, hpri, h]
        · next hcond => simp [hcond, h]
    rw [linkLoop, admitLoop, hstep]
    exact ih _ _ _ rfl

/-- C3 amended: because the root sentinel `/` is among the catalog fragments
and is a substring of every normalized URL, every admitted URL passes the
priority test and is inserted at the front of the page's `new_urls` list, so
that list is the reverse of the discovery-order admissions; the list is then
appended at the back of the crawl queue, behind every URL already waiting.
No URL is ever inserted at the front of the Frontier's queue. -/
theorem C3_amended_every_admitted_url_front_of_page_list :
    (∀ (base_url url : String) (all_urls anchors : List String),
      strIn "/" (lowerStr base_url) = true →
      (processLinks base_url url all_urls anchors).2
        = (admittedSeq base_url url all_urls anchors).reverse) ∧
    (∀ (web : String → FetchOutcome) (cfg : Config) (st : CrawlState),
      (crawlStep web cfg st).queue
        = st.queue.drop cfg.batch_size
            ++ ((crawlStep web cfg st).enqLog.drop st.enqLog.length)) := by
  constructor
  · intro base_url url all_urls anchors hb
    exact (linkLoop_reverse base_url url hb anchors all_urls [] [] rfl).2
  · intro web cfg st
    obtain ⟨fr, hq, hv, he⟩ := crawlStep_shape web cfg st
    rw [hq, he, List.drop_left]

/-- Witness for C3 amended: a root page discovering `/a` then `/b` produces the
new-URL list `[/b, /a]`, the reverse of the discovery-order admissions, and the
concrete crawl step appends the admitted block at the back of the queue. -/
theorem C3_amended_every_admitted_url_front_of_page_list_witness :
    (processLinks "http://site.test" "http://site.test" []
        ["http://site.test/a", "http://site.test/b"]).2
      = (admittedSeq "http://site.test" "http://site.test" []
          ["http://site.test/a", "http://site.test/b"]).reverse ∧
    (crawlStep c3web c3cfg c3st).queue
      = c3st.queue.drop c3cfg.batch_size
          ++ ((crawlStep c3web c3cfg c3st).enqLog.drop c3st.enqLog.length) :=
  ⟨C3_amended_every_admitted_url_front_of_page_list.1 "http://site.test" "http://site.test" []
      ["http://site.test/a", "http://site.test/b"] (by decide),
   C3_amended_every_admitted_url_front_of_page_list.2 c3web c3cfg c3st⟩


/-- Each link either leaves the accumulator unchanged or admits one URL not yet
in `all_urls`, consing it onto `all_urls` and placing it at the front or the
back of `new_urls`. -/
lemma linkStep_cases (base_url url : String) (acc : List String × List String) (href : String) :
    linkStep base_url url acc href = acc ∨
    ∃ nu, nu ∉ acc.1 ∧
      (linkStep base_url url acc href = (nu :: acc.1, nu :: acc.2) ∨
       linkStep base_url url acc href = (nu :: acc.1, acc.2 ++ [nu])) := by
  simp only [linkStep]
  by_cases h1 : (href == "" || strStarts "#" href || strStarts "mailto:" href) = true
  · left; simp [h1]
  · simp only [h1, Bool.false_eq_true, if_false]
    split
    · next hcond =>
      right
      refine ⟨normalize_url (urljoin url href), ?_, ?_⟩
      · simp only [Bool.and_eq_true, Bool.not_eq_true'] at hcond
        simpa using hcond.2
      · split
        · exact Or.inl rfl
        · exact Or.inr rfl
    · next => exact Or.inl rfl

/-- Invariant of the link loop relative to the starting `all_urls` set
`allU0`: `all_urls` only grows, and `new_urls` stays duplicate-free, inside the
final `all_urls`, and disjoint from `allU0`. -/
lemma linkLoop_inv (base_url url : String) (allU0 : List String) :
    ∀ (anchors : List String) (acc : List String × List String),
      (∀ u ∈ allU0, u ∈ acc.1) → acc.2.Nodup → (∀ u ∈ acc.2, u ∈ acc.1) →
      (∀ u ∈ acc.2, u ∉ allU0) →
      (∀ u ∈ allU0, u ∈ (linkLoop base_url url anchors acc).1) ∧
      (linkLoop base_url url anchors acc).2.Nodup ∧
      (∀ u ∈ (linkLoop base_url url anchors acc).2, u ∈ (linkLoop base_url url anchors acc).1) ∧
      (∀ u ∈ (linkLoop base_url url anchors acc).2, u ∉ allU0) := by
  intro anchors
  induction anchors with
  | nil => intro acc h1 h2 h3 h4; exact ⟨h1, h2, h3, h4⟩
  | cons href rest ih =>
    intro acc h1 h2 h3 h4
    rw [linkLoop]
    rcases linkStep_cases base_url url acc href with heq | ⟨nu, hnu, heq | heq⟩
    · rw [heq]; exact ih acc h1 h2 h3 h4
    · rw [heq]
      apply ih
      · intro u hu; exact List.mem_cons_of_mem _ (h1 u hu)
      · exact List.nodup_cons.mpr ⟨fun hc => hnu (h3 nu hc), h2⟩
      · intro u hu
        rcases List.mem_cons.mp hu with rfl | hu2
        · exact List.mem_cons_self _ _
        · exact List.mem_cons_of_mem _ (h3 u hu2)
      · intro u hu
        rcases List.mem_cons.mp hu with rfl | hu2
        · exact fun hmem => hnu (h1 u hmem)
        · exact h4 u hu2
    · rw [heq]
      apply ih
      · intro u hu; exact List.mem_cons_of_mem _ (h1 u hu)
      · refine List.Nodup.append h2 (List.nodup_singleton _) ?_
        intro u hu hmem
        rw [List.mem_singleton] at hmem
        subst hmem
        exact hnu (h3 u hu)
      · intro u hu
        rcases List.mem_append.mp hu with hu2 | hu2
        · exact List.mem_cons_of_mem _ (h3 u hu2)
        · rw [List.mem_singleton] at hu2; subst hu2; exact List.mem_cons_self _ _
      · intro u hu
        rcases List.mem_append.mp hu with hu2 | hu2
        · exact h4 u hu2
        · rw [List.mem_singleton] at hu2; subst hu2
          exact fun hmem => hnu (h1 u hmem)

/-- Invariant of one `_process_url` call: `all_urls` only grows and the
returned `new_urls` are duplicate-free, recorded in the final `all_urls`, and
were all absent from the starting `all_urls`. -/
lemma process_url_spec (web : String → FetchOutcome) (base_url : String) (st : SessionState)
    (url : String) :
    (∀ u ∈ st.all_urls, u ∈ (process_url web base_url st url).1.all_urls) ∧
    (process_url web base_url st url).2.Nodup ∧
    (∀ u ∈ (process_url web base_url st url).2, u ∈ (process_url web base_url st url).1.all_urls) ∧
    (∀ u ∈ (process_url web base_url st url).2, u ∉ st.all_urls) := by
  cases hw : web url with
  | err => simp [process_url, hw]
  | ok status html =>
    by_cases hs : (status != 200) = true
    · simp [process_url, hw, hs]
    · cases html with
      | none => simp [process_url, hw, hs]
      | some soup =>
        have h := linkLoop_inv base_url url st.all_urls soup.anchors (st.all_urls, [])
          (fun u hu => hu) List.nodup_nil (by simp) (by simp)
        simpa [process_url, hw, hs, processLinks] using h


/-- Invariant of a batch: the concatenation of all returned link lists is
duplicate-free, recorded in the final `all_urls`, and disjoint from the
`all_urls` set `allU0` the batch started from. -/
lemma batchFold_inv (web : String → FetchOutcome) (base_url : String) :
    ∀ (batch : List String) (acc : SessionState × List (List String)) (allU0 : List String),
      (∀ u ∈ allU0, u ∈ acc.1.all_urls) →
      acc.2.flatten.Nodup →
      (∀ u ∈ acc.2.flatten, u ∈ acc.1.all_urls) →
      (∀ u ∈ acc.2.flatten, u ∉ allU0) →
      (∀ u ∈ allU0, u ∈ (batchFold web base_url batch acc).1.all_urls) ∧
      (batchFold web base_url batch acc).2.flatten.Nodup ∧
      (∀ u ∈ (batchFold web base_url batch acc).2.flatten,
        u ∈ (batchFold web base_url batch acc).1.all_urls) ∧
      (∀ u ∈ (batchFold web base_url batch acc).2.flatten, u ∉ allU0) := by
  intro batch
  induction batch with
  | nil => intro acc allU0 h1 h2 h3 h4; exact ⟨h1, h2, h3, h4⟩
  | cons url rest ih =>
    intro acc allU0 h1 h2 h3 h4
    rw [batchFold]
    obtain ⟨p1, p2, p3, p4⟩ := process_url_spec web base_url acc.1 url
    apply ih
    · intro u hu
      exact p1 u (h1 u hu)
    · simp only [List.flatten_append, List.flatten_cons, List.flatten_nil, List.append_nil]
      refine List.Nodup.append h2 p2 ?_
      intro u hu hu2
      exact p4 u hu2 (h3 u hu)
    · intro u hu
      simp only [List.flatten_append, List.flatten_cons, List.flatten_nil, List.append_nil] at hu
      rcases List.mem_append.mp hu with hu2 | hu2
      · exact p1 u (h3 u hu2)
      · exact p3 u hu2
    · intro u hu
      simp only [List.flatten_append, List.flatten_cons, List.flatten_nil, List.append_nil] at hu
      rcases List.mem_append.mp hu with hu2 | hu2
      · exact h4 u hu2
      · exact fun hmem => p4 u hu2 (h1 u hmem)

/-- If the enqueue log is duplicate-free, the batch results are jointly
duplicate-free and disjoint from the log, then the updated log is still
duplicate-free and only contains old log entries or batch results. -/
lemma applyResults_nodup : ∀ (results : List (List String)) (q v e : List String),
    e.Nodup → results.flatten.Nodup → (∀ u ∈ results.flatten, u ∉ e) →
    (applyResults (q, v, e) results).2.2.Nodup ∧
    (∀ u ∈ (applyResults (q, v, e) results).2.2, u ∈ e ∨ u ∈ results.flatten) := by
  intro results
  induction results with
  | nil => intro q v e he _ _; exact ⟨he, fun u hu => Or.inl hu⟩
  | cons r rest ih =>
    intro q v e he hj hd
    rw [applyResults]
    simp only [List.flatten_cons] at hj hd
    have hrn : r.Nodup := (List.nodup_append.mp hj).1
    have hrestn : rest.flatten.Nodup := (List.nodup_append.mp hj).2.1
    have hdisj : r.Disjoint rest.flatten := (List.nodup_append.mp hj).2.2
    have hfn : (r.filter (fun u => !(v.contains u))).Nodup := hrn.filter _
    have hfsub : ∀ u ∈ r.filter (fun u => !(v.contains u)), u ∈ r :=
      fun u hu => (List.mem_filter.mp hu).1
    obtain ⟨ihn, ihsub⟩ := ih (q ++ r.filter (fun u => !(v.contains u)))
      (v ++ r.filter (fun u => !(v.contains u))) (e ++ r.filter (fun u => !(v.contains u)))
      (List.Nodup.append he hfn
        (fun u hu hu2 => hd u (List.mem_append.mpr (Or.inl (hfsub u hu2))) hu))
      hrestn
      (fun u hu hmem => by
        rcases List.mem_append.mp hmem with h5 | h5
        · exact hd u (List.mem_append.mpr (Or.inr hu)) h5
        · exact hdisj (hfsub u h5) hu)
    refine ⟨ihn, ?_⟩
    intro u hu
    rcases ihsub u hu with hin | hin
    · rcases List.mem_append.mp hin with h5 | h5
      · exact Or.inl h5
      · exact Or.inr (List.mem_append.mpr (Or.inl (hfsub u h5)))
    · exact Or.inr (List.mem_append.mpr (Or.inr hin))

/-- One crawl iteration preserves the invariant that the enqueue log is
duplicate-free and recorded in `all_urls`. -/
lemma crawlStep_inv (web : String → FetchOutcome) (cfg : Config) (st : CrawlState)
    (h1 : st.enqLog.Nodup) (h2 : ∀ u ∈ st.enqLog, u ∈ st.sess.all_urls) :
    (crawlStep web cfg st).enqLog.Nodup ∧
    (∀ u ∈ (crawlStep web cfg st).enqLog, u ∈ (crawlStep web cfg st).sess.all_urls) := by
  obtain ⟨b1, b2, b3, b4⟩ := batchFold_inv web cfg.base_url (st.queue.take cfg.batch_size)
    (st.sess, []) st.sess.all_urls (fun u hu => hu) (by simp) (by simp) (by simp)
  obtain ⟨an, asub⟩ := applyResults_nodup
    (batchFold web cfg.base_url (st.queue.take cfg.batch_size) (st.sess, [])).2
    (st.queue.drop cfg.batch_size) st.visited st.enqLog h1 b2
    (fun u hu hmem => b4 u hu (h2 u hmem))
  constructor
  · exact an
  · intro u hu
    rcases asub u hu with hin | hin
    · exact b1 u (h2 u hin)
    · exact b3 u hin

/-- The crawl loop preserves the enqueue-log invariant down to its result. -/
lemma crawlLoop_inv (web : String → FetchOutcome) (cfg : Config) (times : Nat → Nat) :
    ∀ (fuel i : Nat) (st : CrawlState),
      st.enqLog.Nodup → (∀ u ∈ st.enqLog, u ∈ st.sess.all_urls) →
      enqOnce (crawlLoop web cfg times fuel i st) := by
  intro fuel
  induction fuel with
  | zero => intro i st h1 h2; trivial
  | succ fuel ih =>
    intro i st h1 h2
    rw [crawlLoop]
    split
    · exact ⟨h1, h2⟩
    · split
      · exact ⟨h1, h2⟩
      · obtain ⟨hn, hsub⟩ := crawlStep_inv web cfg st h1 h2
        exact ih (i + 1) (crawlStep web cfg st) hn hsub

/-- C4: for every crawl and every NormalizedURL key, that key is enqueued into
the Frontier at most once over the lifetime of the crawl (the log of URLs ever
placed on the queue is duplicate-free), and every enqueued key is recorded in
`allUrls` at admission — later discoveries of the same key are rejected by the
`not in all_urls` guard. -/
theorem C4_each_url_enqueued_at_most_once :
    ∀ (web : String → FetchOutcome) (cfg : Config) (times : Nat → Nat) (fuel : Nat),
      enqOnce (crawl web cfg times fuel) := by
  intro web cfg times fuel
  apply crawlLoop_inv
  · simp [initState]
  · simp [initState]


end Crawler
